import Mathlib

/-!
# AWS SQS queue scaler (`pkg/scalers/aws_sqs_queue_scaler.go`)

A shallow embedding of the queue-length scaler: metadata parsing with
credential resolution, the queue-length measurement, and the polling
operations `IsActive`, `GetMetricSpecForScaling` and `GetMetrics`.

Conventions of the embedding.

* A Go `map[string]string` is an association list; the first binding of a key
  is the one a lookup sees.
* A Go `(value, error)` result is a pair whose second component is
  `Option GoError`; `none` is Go's `nil` error.  A nil `*awsSqsQueueMetadata` is
  `none`.
* Go's `int` is the 64-bit signed integer; values are carried in `Int`, and the
  narrowing conversion `int32(x)` is written out with explicit wrap-around.
* A run-time panic (nil pointer dereference) is the outer `none` of an
  `Option` result.
* Calls to the logger change no returned value and are left out.
-/

namespace Scalers

/-! ## Go runtime and library values -/

/-- A Go `map[string]string`. -/
abbrev GoMap := List (String × String)

/-- The comma-ok lookup `val, ok := m[k]`: `some val` when `ok`. -/
def GoMap.get? (m : GoMap) (k : String) : Option String :=
  List.lookup k m

/-- The plain index expression `m[k]`: the zero value `""` for an absent key. -/
def GoMap.index (m : GoMap) (k : String) : String :=
  (m.get? k).getD ""

/-- The two failure kinds of `strconv`: `ErrSyntax` and `ErrRange`. -/
inductive NumErrKind
  | malformed
  | outOfRange
deriving DecidableEq, Repr

/-- Go `error` values that occur in this file. -/
inductive GoError
  | errorf (msg : String)
  | numError (func : String) (num : String) (kind : NumErrKind)
  | backend (code : String)
deriving DecidableEq, Repr

/-- Largest value of Go's `int` (64-bit). -/
def maxInt : Int := 2 ^ 63 - 1

/-- Smallest value of Go's `int` (64-bit). -/
def minInt : Int := -(2 ^ 63)

/-- Value of one ASCII decimal digit. -/
def digitVal (c : Char) : Nat := c.toNat - 48

/-- Value of a run of decimal digits, most significant first. -/
def digitsVal (ds : List Char) : Nat :=
  ds.foldl (fun n c => n * 10 + digitVal c) 0

/-- Splits an optional leading sign off the characters of a numeral. -/
def splitSign : List Char → Bool × List Char
  | '-' :: t => (true, t)
  | '+' :: t => (false, t)
  | cs => (false, cs)

/-- Largest value of Go's `uint64`. -/
def maxUint64 : Nat := 2 ^ 64 - 1

/-- The digit loop of Go's `strconv.ParseUint(s, 10, 64)`, with the value `n`
read so far.  Characters are taken left to right: a character that is no
decimal digit is a syntax error, and a digit that takes the value beyond
`uint64` is a range error with the largest `uint64`; whichever comes first
decides. -/
def parseUintLoop : List Char → Nat → Nat × Option NumErrKind
  | [], n => (n, none)
  | c :: cs, n =>
    if c.isDigit = false then (0, some NumErrKind.malformed)
    else if maxUint64 / 10 + 1 ≤ n then (maxUint64, some NumErrKind.outOfRange)
    else if maxUint64 < n * 10 + digitVal c then (maxUint64, some NumErrKind.outOfRange)
    else parseUintLoop cs (n * 10 + digitVal c)

/-- Go's `strconv.ParseUint(s, 10, 64)` on the characters of `s`. -/
def ParseUint (cs : List Char) : Nat × Option NumErrKind :=
  if cs = [] then (0, some NumErrKind.malformed) else parseUintLoop cs 0

/-- Go's `strconv.ParseInt(s, 10, 0)` on the characters of `s`: the sign is
picked off, the rest is read by `ParseUint`, a syntax error is passed on, and
the magnitude is checked against the range of the 64-bit `int`. -/
def ParseInt (cs : List Char) : Int × Option NumErrKind :=
  if cs = [] then (0, some NumErrKind.malformed)
  else
    let sd := splitSign cs
    let r := ParseUint sd.2
    if r.2 = some NumErrKind.malformed then (0, some NumErrKind.malformed)
    else if sd.1 = false ∧ 2 ^ 63 ≤ r.1 then (maxInt, some NumErrKind.outOfRange)
    else if sd.1 = true ∧ 2 ^ 63 < r.1 then (minInt, some NumErrKind.outOfRange)
    else if sd.1 = true then (-(r.1 : Int), none)
    else ((r.1 : Int), none)

/-- Go's `strconv.Atoi`: `ParseInt(s, 10, 0)` with the error, if any, naming
`Atoi` and the whole input.  The fast path for short strings returns the same
results and is not modelled apart. -/
def Atoi (s : String) : Int × Option GoError :=
  match ParseInt s.data with
  | (i64, none) => (i64, none)
  | (i64, some kind) => (i64, some (GoError.numError "Atoi" s kind))

/-- The conversion `int32(x)` of a Go `int`: two's-complement wrap-around. -/
def toInt32 (x : Int) : Int :=
  (x + 2 ^ 31) % 2 ^ 32 - 2 ^ 31

/-! ## Constants -/

def awsSqsQueueMetricName : String := "ApproximateNumberOfMessages"

def targetQueueLengthDefault : Int := 5

/-- Modelled from the spec: the package constant `defaultTargetQueueLength` is
declared in another file of package `scalers`; the spec says that an absent
`queueLength` yields the same fixed default target, 5. -/
def defaultTargetQueueLength : Int := 5

/-! ## Metadata -/

structure awsSqsQueueMetadata where
  targetQueueLength : Int
  queueURL : String
  awsRegion : String
  awsAccessKeyID : String
  awsSecretAccessKey : String
  awsSessionToken : String
  awsRoleArn : String
deriving DecidableEq, Repr

structure awsSqsQueueScaler where
  metadata : awsSqsQueueMetadata
deriving DecidableEq, Repr

/-- The `queueLength` block of `parseAwsSqsQueueMetadata`: the target queue
length after the optional `queueLength` key has been read. -/
def parseQueueLength (metadata : GoMap) : Int :=
  match metadata.get? "queueLength" with
  | some val =>
    if val ≠ "" then
      match Atoi val with
      | (_, some _) => targetQueueLengthDefault
      | (queueLength, none) => queueLength
    else defaultTargetQueueLength
  | none => defaultTargetQueueLength

/-- The function `parseAwsSqsQueueMetadata`.  The annotation key
`kedav1alpha1.PodIdentiyAnnotationKiam` comes from another package and is the
first argument. -/
def parseAwsSqsQueueMetadata (PodIdentiyAnnotationKiam : String)
    (metadata resolvedAnnotations authParams : GoMap) (podIdentity : String) :
    Option awsSqsQueueMetadata × Option GoError :=
  let m0 : awsSqsQueueMetadata :=
    { targetQueueLength := parseQueueLength metadata
      queueURL := ""
      awsRegion := ""
      awsAccessKeyID := ""
      awsSecretAccessKey := ""
      awsSessionToken := ""
      awsRoleArn := "" }
  match metadata.get? "queueURL" with
  | none => (none, some (GoError.errorf "no queueURL given"))
  | some url =>
    if url = "" then (none, some (GoError.errorf "no queueURL given"))
    else
      let m1 := { m0 with queueURL := url }
      match metadata.get? "awsRegion" with
      | none => (none, some (GoError.errorf "no awsRegion given"))
      | some region =>
        if region = "" then (none, some (GoError.errorf "no awsRegion given"))
        else
          let m2 := { m1 with awsRegion := region }
          if podIdentity = "kiam" then
            (some { m2 with awsRoleArn := resolvedAnnotations.index PodIdentiyAnnotationKiam },
              none)
          else if authParams.index "awsRoleArn" ≠ "" then
            (some { m2 with awsRoleArn := authParams.index "awsRoleArn" }, none)
          else if authParams.index "awsAccessKeyId" ≠ "" ∧
              authParams.index "awsSecretAccessKey" ≠ "" then
            (some { m2 with
                awsAccessKeyID := authParams.index "awsAccessKeyId"
                awsSecretAccessKey := authParams.index "awsSecretAccessKey" }, none)
          else (none, some (GoError.errorf "No authentication was found"))

/-! ## The backend -/

structure GetQueueAttributesInput where
  AttributeNames : List String
  QueueUrl : String
deriving DecidableEq, Repr

/-- The two credential providers the measurement builds: static keys, or an
assumed role. -/
inductive Credentials
  | static (id : String) (secret : String) (token : String)
  | assumeRole (roleArn : String)
deriving DecidableEq, Repr

/-- The response of `GetQueueAttributes`; `Attributes` is a
`map[string]*string`, a `none` value being a nil pointer. -/
structure GetQueueAttributesOutput where
  Attributes : List (String × Option String)
deriving DecidableEq, Repr

/-- The SQS client: region, credentials and request to response or error. -/
abbrev SqsClient :=
  String → Credentials → GetQueueAttributesInput → Except GoError GetQueueAttributesOutput

/-- The request built by `GetAwsSqsQueueLength`. -/
def queueAttributesInput (s : awsSqsQueueScaler) : GetQueueAttributesInput :=
  { AttributeNames := ["ApproximateNumberOfMessages"]
    QueueUrl := s.metadata.queueURL }

/-- The credentials chosen by `GetAwsSqsQueueLength`: static keys, replaced by
the assumed role when `awsRoleArn` is non-empty. -/
def queueCredentials (s : awsSqsQueueScaler) : Credentials :=
  if s.metadata.awsRoleArn ≠ "" then Credentials.assumeRole s.metadata.awsRoleArn
  else Credentials.static s.metadata.awsAccessKeyID s.metadata.awsSecretAccessKey ""

/-- The method `GetAwsSqsQueueLength`.  The outer `none` is the panic of
dereferencing a nil attribute pointer. -/
def GetAwsSqsQueueLength (s : awsSqsQueueScaler) (client : SqsClient) :
    Option (Int × Option GoError) :=
  match client s.metadata.awsRegion (queueCredentials s) (queueAttributesInput s) with
  | Except.error err => some (-1, some err)
  | Except.ok output =>
    match (List.lookup "ApproximateNumberOfMessages" output.Attributes).join with
    | none => none
    | some attr =>
      match Atoi attr with
      | (_, some err) => some (-1, some err)
      | (approximateNumberOfMessages, none) => some (toInt32 approximateNumberOfMessages, none)

/-! ## Polling operations -/

/-- The method `IsActive`. -/
def IsActive (s : awsSqsQueueScaler) (client : SqsClient) : Option (Bool × Option GoError) :=
  match GetAwsSqsQueueLength s client with
  | none => none
  | some (_, some err) => some (false, some err)
  | some (length, none) => some (decide (0 < length), none)

/-- A `resource.Quantity` built by `resource.NewQuantity(v, DecimalSI)`. -/
structure Quantity where
  value : Int
  format : String
deriving DecidableEq, Repr

def NewQuantity (v : Int) (format : String) : Quantity := ⟨v, format⟩

def DecimalSI : String := "DecimalSI"

structure ExternalMetricSource where
  MetricName : String
  TargetAverageValue : Quantity
deriving DecidableEq, Repr

structure MetricSpec where
  External : ExternalMetricSource
  type : String
deriving DecidableEq, Repr

/-- The method `GetMetricSpecForScaling`.  The package constant
`externalMetricType` is declared in another file and is the first argument.
The conversion `int64(targetQueueLength)` of a 64-bit `int` changes nothing. -/
def GetMetricSpecForScaling (externalMetricType : String) (s : awsSqsQueueScaler) :
    List MetricSpec :=
  let targetQueueLengthQty := NewQuantity s.metadata.targetQueueLength DecimalSI
  let externalMetric : ExternalMetricSource :=
    { MetricName := awsSqsQueueMetricName, TargetAverageValue := targetQueueLengthQty }
  let metricSpec : MetricSpec := { External := externalMetric, type := externalMetricType }
  [metricSpec]

structure ExternalMetricValue where
  MetricName : String
  Value : Quantity
  Timestamp : Nat
deriving DecidableEq, Repr

/-- The method `GetMetrics`; `now` is the reading of the clock, `metav1.Now()`.
The conversion `int64(queuelen)` widens an `int32` and changes nothing. -/
def GetMetrics (s : awsSqsQueueScaler) (client : SqsClient) (now : Nat)
    (metricName : String) (_metricSelector : String) :
    Option (List ExternalMetricValue × Option GoError) :=
  match GetAwsSqsQueueLength s client with
  | none => none
  | some (_, some err) => some ([], some err)
  | some (queuelen, none) =>
    let metric : ExternalMetricValue :=
      { MetricName := metricName
        Value := NewQuantity queuelen DecimalSI
        Timestamp := now }
    some ([] ++ [metric], none)

/-! ## Fixtures -/

/-- A scaler with static keys, used to evaluate the polling operations. -/
def fixtureScaler : awsSqsQueueScaler :=
  ⟨⟨5, "https://sqs/q", "eu-west-1", "id", "key", "", ""⟩⟩

/-- A client answering every request with the given value of the attribute
`ApproximateNumberOfMessages`. -/
def fixtureClient (attr : String) : SqsClient :=
  fun _ _ _ => Except.ok ⟨[("ApproximateNumberOfMessages", some attr)]⟩

/-- A client failing every request with the given error. -/
def fixtureFailingClient (e : GoError) : SqsClient :=
  fun _ _ _ => Except.error e

/-! ## Metadata parsing: required keys and credential resolution -/

/-- C1: when `queueURL` or `awsRegion` is absent from the metadata or maps to
the empty string, `parseAwsSqsQueueMetadata` returns no descriptor and an
error, whatever the annotations, the auth parameters and the identity-provider
mode are. -/
theorem parse_required_key_missing (kiamKey : String)
    (metadata resolvedAnnotations authParams : GoMap) (podIdentity : String)
    (h : metadata.get? "queueURL" = none ∨ metadata.get? "queueURL" = some "" ∨
      metadata.get? "awsRegion" = none ∨ metadata.get? "awsRegion" = some "") :
    ∃ e, parseAwsSqsQueueMetadata kiamKey metadata resolvedAnnotations authParams podIdentity
        = (none, some e) ∧
      (e = GoError.errorf "no queueURL given" ∨ e = GoError.errorf "no awsRegion given") := by
  unfold parseAwsSqsQueueMetadata
  rcases h with h | h | h | h
  · simp [h]
  · simp [h]
  · cases hu : metadata.get? "queueURL" with
    | none => simp
    | some url => by_cases hu0 : url = "" <;> simp [hu0, h]
  · cases hu : metadata.get? "queueURL" with
    | none => simp
    | some url => by_cases hu0 : url = "" <;> simp [hu0, h]

/-- The empty metadata map with empty auth parameters and no identity-provider
mode is rejected. -/
theorem parse_required_key_missing_witness :
    ∃ e, parseAwsSqsQueueMetadata "iam.amazonaws.com/role" [] [] [] "" = (none, some e) ∧
      (e = GoError.errorf "no queueURL given" ∨ e = GoError.errorf "no awsRegion given") :=
  parse_required_key_missing "iam.amazonaws.com/role" [] [] [] "" (Or.inl rfl)

/-- C2: with `queueURL` and `awsRegion` present and non-empty, credentials are
resolved by first match: mode `kiam` takes the role from the kiam annotation
and ignores the auth parameters; otherwise a non-empty auth parameter
`awsRoleArn` wins, also over access keys; otherwise both access keys, when
non-empty, are taken; otherwise parsing fails with "No authentication was
found". -/
theorem parse_credential_precedence (kiamKey : String)
    (metadata resolvedAnnotations authParams : GoMap) (podIdentity url region : String)
    (hu : metadata.get? "queueURL" = some url) (hu0 : url ≠ "")
    (hr : metadata.get? "awsRegion" = some region) (hr0 : region ≠ "") :
    (podIdentity = "kiam" →
      parseAwsSqsQueueMetadata kiamKey metadata resolvedAnnotations authParams podIdentity =
        (some
          { targetQueueLength := parseQueueLength metadata
            queueURL := url
            awsRegion := region
            awsAccessKeyID := ""
            awsSecretAccessKey := ""
            awsSessionToken := ""
            awsRoleArn := resolvedAnnotations.index kiamKey }, none)) ∧
    (podIdentity ≠ "kiam" → authParams.index "awsRoleArn" ≠ "" →
      parseAwsSqsQueueMetadata kiamKey metadata resolvedAnnotations authParams podIdentity =
        (some
          { targetQueueLength := parseQueueLength metadata
            queueURL := url
            awsRegion := region
            awsAccessKeyID := ""
            awsSecretAccessKey := ""
            awsSessionToken := ""
            awsRoleArn := authParams.index "awsRoleArn" }, none)) ∧
    (podIdentity ≠ "kiam" → authParams.index "awsRoleArn" = "" →
      authParams.index "awsAccessKeyId" ≠ "" → authParams.index "awsSecretAccessKey" ≠ "" →
      parseAwsSqsQueueMetadata kiamKey metadata resolvedAnnotations authParams podIdentity =
        (some
          { targetQueueLength := parseQueueLength metadata
            queueURL := url
            awsRegion := region
            awsAccessKeyID := authParams.index "awsAccessKeyId"
            awsSecretAccessKey := authParams.index "awsSecretAccessKey"
            awsSessionToken := ""
            awsRoleArn := "" }, none)) ∧
    (podIdentity ≠ "kiam" → authParams.index "awsRoleArn" = "" →
      (authParams.index "awsAccessKeyId" = "" ∨ authParams.index "awsSecretAccessKey" = "") →
      parseAwsSqsQueueMetadata kiamKey metadata resolvedAnnotations authParams podIdentity =
        (none, some (GoError.errorf "No authentication was found"))) := by
  unfold parseAwsSqsQueueMetadata
  refine ⟨?_, ?_, ?_, ?_⟩
  · intro hp
    simp [hu, hu0, hr, hr0, hp]
  · intro hp ha
    simp [hu, hu0, hr, hr0, hp, ha]
  · intro hp ha hk hs
    simp [hu, hu0, hr, hr0, hp, ha, hk, hs]
  · intro hp ha hks
    rcases hks with hk | hs
    · simp [hu, hu0, hr, hr0, hp, ha, hk]
    · simp [hu, hu0, hr, hr0, hp, ha, hs]

/-- The four branches of the precedence at concrete inputs: mode `kiam` with
auth parameters that are ignored, a role ARN next to access keys, access keys
alone, and nothing at all. -/
theorem parse_credential_precedence_witness :
    parseAwsSqsQueueMetadata "iam.amazonaws.com/role"
        [("queueURL", "https://sqs/q"), ("awsRegion", "eu-west-1")]
        [("iam.amazonaws.com/role", "arn:pod")]
        [("awsRoleArn", "arn:auth"), ("awsAccessKeyId", "id"), ("awsSecretAccessKey", "key")]
        "kiam" =
      (some ⟨5, "https://sqs/q", "eu-west-1", "", "", "", "arn:pod"⟩, none) ∧
    parseAwsSqsQueueMetadata "iam.amazonaws.com/role"
        [("queueURL", "https://sqs/q"), ("awsRegion", "eu-west-1")]
        []
        [("awsRoleArn", "arn:auth"), ("awsAccessKeyId", "id"), ("awsSecretAccessKey", "key")]
        "aws-credentials" =
      (some ⟨5, "https://sqs/q", "eu-west-1", "", "", "", "arn:auth"⟩, none) ∧
    parseAwsSqsQueueMetadata "iam.amazonaws.com/role"
        [("queueURL", "https://sqs/q"), ("awsRegion", "eu-west-1")]
        []
        [("awsAccessKeyId", "id"), ("awsSecretAccessKey", "key")]
        "" =
      (some ⟨5, "https://sqs/q", "eu-west-1", "id", "key", "", ""⟩, none) ∧
    parseAwsSqsQueueMetadata "iam.amazonaws.com/role"
        [("queueURL", "https://sqs/q"), ("awsRegion", "eu-west-1")]
        []
        [("awsAccessKeyId", "id")]
        "aws-role" =
      (none, some (GoError.errorf "No authentication was found")) :=
  ⟨(parse_credential_precedence "iam.amazonaws.com/role"
      [("queueURL", "https://sqs/q"), ("awsRegion", "eu-west-1")]
      [("iam.amazonaws.com/role", "arn:pod")]
      [("awsRoleArn", "arn:auth"), ("awsAccessKeyId", "id"), ("awsSecretAccessKey", "key")]
      "kiam" "https://sqs/q" "eu-west-1" rfl (by decide) rfl (by decide)).1 rfl,
   (parse_credential_precedence "iam.amazonaws.com/role"
      [("queueURL", "https://sqs/q"), ("awsRegion", "eu-west-1")]
      []
      [("awsRoleArn", "arn:auth"), ("awsAccessKeyId", "id"), ("awsSecretAccessKey", "key")]
      "aws-credentials" "https://sqs/q" "eu-west-1" rfl (by decide) rfl (by decide)).2.1
      (by decide) (by decide),
   (parse_credential_precedence "iam.amazonaws.com/role"
      [("queueURL", "https://sqs/q"), ("awsRegion", "eu-west-1")]
      []
      [("awsAccessKeyId", "id"), ("awsSecretAccessKey", "key")]
      "" "https://sqs/q" "eu-west-1" rfl (by decide) rfl (by decide)).2.2.1
      (by decide) (by decide) (by decide) (by decide),
   (parse_credential_precedence "iam.amazonaws.com/role"
      [("queueURL", "https://sqs/q"), ("awsRegion", "eu-west-1")]
      []
      [("awsAccessKeyId", "id")]
      "aws-role" "https://sqs/q" "eu-west-1" rfl (by decide) rfl (by decide)).2.2.2
      (by decide) (by decide) (Or.inr (by decide))⟩

/-- C3, as stated, fails: in mode `aws-role` with a non-empty role ARN the
auth parameter `awsAssumeRoleDuration` is present and is the empty string,
which `Atoi` rejects, and parsing nevertheless succeeds. -/
theorem parse_assumeRoleDuration_counterexample :
    GoMap.get? [("awsRoleArn", "none"), ("awsAssumeRoleDuration", "")] "awsAssumeRoleDuration"
        = some "" ∧
    (Atoi "").2 ≠ none ∧
    parseAwsSqsQueueMetadata "iam.amazonaws.com/role"
        [("queueURL", "https://sqs/q"), ("awsRegion", "eu-west-1")]
        []
        [("awsRoleArn", "none"), ("awsAssumeRoleDuration", "")]
        "aws-role" =
      (some ⟨5, "https://sqs/q", "eu-west-1", "", "", "", "none"⟩, none) := by
  decide

/-- C3, amended: `parseAwsSqsQueueMetadata` never reads `awsAssumeRoleDuration`.
With `queueURL` and `awsRegion` non-empty, mode `aws-role` and a non-empty auth
parameter `awsRoleArn`, parsing succeeds with that role ARN, and giving
`awsAssumeRoleDuration` any value `d` at all leaves the result unchanged. -/
theorem parse_assumeRoleDuration_ignored (kiamKey : String)
    (metadata resolvedAnnotations authParams : GoMap) (url region d : String)
    (hu : metadata.get? "queueURL" = some url) (hu0 : url ≠ "")
    (hr : metadata.get? "awsRegion" = some region) (hr0 : region ≠ "")
    (ha : authParams.index "awsRoleArn" ≠ "") :
    parseAwsSqsQueueMetadata kiamKey metadata resolvedAnnotations authParams "aws-role" =
      (some
        { targetQueueLength := parseQueueLength metadata
          queueURL := url
          awsRegion := region
          awsAccessKeyID := ""
          awsSecretAccessKey := ""
          awsSessionToken := ""
          awsRoleArn := authParams.index "awsRoleArn" }, none) ∧
    parseAwsSqsQueueMetadata kiamKey metadata resolvedAnnotations
        (("awsAssumeRoleDuration", d) :: authParams) "aws-role" =
      parseAwsSqsQueueMetadata kiamKey metadata resolvedAnnotations authParams "aws-role" := by
  have hidx : ∀ key : String, key ≠ "awsAssumeRoleDuration" →
      GoMap.index (("awsAssumeRoleDuration", d) :: authParams) key = authParams.index key := by
    intro key hk
    have hb : (key == "awsAssumeRoleDuration") = false := by simpa using hk
    simp [GoMap.index, GoMap.get?, List.lookup, hb]
  have h1 := hidx "awsRoleArn" (by decide)
  have h2 := hidx "awsAccessKeyId" (by decide)
  have h3 := hidx "awsSecretAccessKey" (by decide)
  unfold parseAwsSqsQueueMetadata
  simp [hu, hu0, hr, hr0, ha, h1, h2, h3]

/-- The assumed-role path at the two durations of the test table, `"5"` and
`""`: both succeed with the same descriptor. -/
theorem parse_assumeRoleDuration_ignored_witness :
    parseAwsSqsQueueMetadata "iam.amazonaws.com/role"
        [("queueURL", "https://sqs/q"), ("awsRegion", "eu-west-1")] []
        [("awsRoleArn", "none"), ("awsAssumeRoleDuration", "5")] "aws-role" =
      (some ⟨5, "https://sqs/q", "eu-west-1", "", "", "", "none"⟩, none) ∧
    parseAwsSqsQueueMetadata "iam.amazonaws.com/role"
        [("queueURL", "https://sqs/q"), ("awsRegion", "eu-west-1")] []
        (("awsAssumeRoleDuration", "") ::
          [("awsRoleArn", "none"), ("awsAssumeRoleDuration", "5")]) "aws-role" =
      parseAwsSqsQueueMetadata "iam.amazonaws.com/role"
        [("queueURL", "https://sqs/q"), ("awsRegion", "eu-west-1")] []
        [("awsRoleArn", "none"), ("awsAssumeRoleDuration", "5")] "aws-role" :=
  parse_assumeRoleDuration_ignored "iam.amazonaws.com/role"
    [("queueURL", "https://sqs/q"), ("awsRegion", "eu-west-1")] []
    [("awsRoleArn", "none"), ("awsAssumeRoleDuration", "5")] "https://sqs/q" "eu-west-1" ""
    rfl (by decide) rfl (by decide) (by decide)

/-- Inversion of a successful parse: the target is the one read from
`queueLength`, and the credential fields come from exactly one of the three
branches. -/
theorem parse_success_inv (kiamKey : String)
    (metadata resolvedAnnotations authParams : GoMap) (podIdentity : String)
    (m : awsSqsQueueMetadata)
    (h : (parseAwsSqsQueueMetadata kiamKey metadata resolvedAnnotations authParams
      podIdentity).1 = some m) :
    m.targetQueueLength = parseQueueLength metadata ∧
    ((podIdentity = "kiam" ∧ m.awsRoleArn = resolvedAnnotations.index kiamKey ∧
        m.awsAccessKeyID = "" ∧ m.awsSecretAccessKey = "") ∨
      (podIdentity ≠ "kiam" ∧ authParams.index "awsRoleArn" ≠ "" ∧
        m.awsRoleArn = authParams.index "awsRoleArn" ∧
        m.awsAccessKeyID = "" ∧ m.awsSecretAccessKey = "") ∨
      (podIdentity ≠ "kiam" ∧ authParams.index "awsRoleArn" = "" ∧
        authParams.index "awsAccessKeyId" ≠ "" ∧ authParams.index "awsSecretAccessKey" ≠ "" ∧
        m.awsRoleArn = "" ∧ m.awsAccessKeyID = authParams.index "awsAccessKeyId" ∧
        m.awsSecretAccessKey = authParams.index "awsSecretAccessKey")) := by
  unfold parseAwsSqsQueueMetadata at h
  cases hu : metadata.get? "queueURL" with
  | none => simp [hu] at h
  | some url =>
    by_cases hu0 : url = ""
    · simp [hu, hu0] at h
    · cases hr : metadata.get? "awsRegion" with
      | none => simp [hu, hu0, hr] at h
      | some region =>
        by_cases hr0 : region = ""
        · simp [hu, hu0, hr, hr0] at h
        · by_cases hp : podIdentity = "kiam"
          · simp [hu, hu0, hr, hr0, hp] at h
            subst h
            simp [hp]
          · by_cases ha : authParams.index "awsRoleArn" = ""
            · by_cases hk : authParams.index "awsAccessKeyId" = ""
              · simp [hu, hu0, hr, hr0, hp, ha, hk] at h
              · by_cases hs : authParams.index "awsSecretAccessKey" = ""
                · simp [hu, hu0, hr, hr0, hp, ha, hk, hs] at h
                · simp [hu, hu0, hr, hr0, hp, ha, hk, hs] at h
                  subst h
                  simp [hp, ha, hk, hs]
            · simp [hu, hu0, hr, hr0, hp, ha] at h
              subst h
              simp [hp, ha]

/-- C5, as stated, fails: in mode `kiam` with no kiam annotation parsing
succeeds and the descriptor has no credential field populated. -/
theorem parse_kiam_unpopulated_counterexample :
    parseAwsSqsQueueMetadata "iam.amazonaws.com/role"
        [("queueURL", "https://sqs/q"), ("awsRegion", "eu-west-1")] [] [] "kiam" =
      (some ⟨5, "https://sqs/q", "eu-west-1", "", "", "", ""⟩, none) ∧
    ¬ (((⟨5, "https://sqs/q", "eu-west-1", "", "", "", ""⟩ : awsSqsQueueMetadata).awsRoleArn ≠ "" ∧
        (⟨5, "https://sqs/q", "eu-west-1", "", "", "", ""⟩ : awsSqsQueueMetadata).awsAccessKeyID = "" ∧
        (⟨5, "https://sqs/q", "eu-west-1", "", "", "", ""⟩ : awsSqsQueueMetadata).awsSecretAccessKey
          = "") ∨
      ((⟨5, "https://sqs/q", "eu-west-1", "", "", "", ""⟩ : awsSqsQueueMetadata).awsRoleArn = "" ∧
        (⟨5, "https://sqs/q", "eu-west-1", "", "", "", ""⟩ : awsSqsQueueMetadata).awsAccessKeyID ≠ "" ∧
        (⟨5, "https://sqs/q", "eu-west-1", "", "", "", ""⟩ : awsSqsQueueMetadata).awsSecretAccessKey
          ≠ "")) := by
  decide

/-- C5, amended: a descriptor returned by a successful parse has either a
non-empty `awsRoleArn` and both key fields empty, or an empty `awsRoleArn` and
both key fields non-empty, or, only in mode `kiam` when the kiam annotation
is absent or empty, all three fields empty. -/
theorem parse_credential_variant (kiamKey : String)
    (metadata resolvedAnnotations authParams : GoMap) (podIdentity : String)
    (m : awsSqsQueueMetadata)
    (h : parseAwsSqsQueueMetadata kiamKey metadata resolvedAnnotations authParams podIdentity
      = (some m, none)) :
    (m.awsRoleArn ≠ "" ∧ m.awsAccessKeyID = "" ∧ m.awsSecretAccessKey = "") ∨
    (m.awsRoleArn = "" ∧ m.awsAccessKeyID ≠ "" ∧ m.awsSecretAccessKey ≠ "") ∨
    (podIdentity = "kiam" ∧ resolvedAnnotations.index kiamKey = "" ∧
      m.awsRoleArn = "" ∧ m.awsAccessKeyID = "" ∧ m.awsSecretAccessKey = "") := by
  have hinv := (parse_success_inv kiamKey metadata resolvedAnnotations authParams podIdentity m
    (by rw [h])).2
  rcases hinv with ⟨hp, hrole, hk, hs⟩ | ⟨_, ha, hrole, hk, hs⟩ | ⟨_, _, hk, hs, hrole, hk2, hs2⟩
  · by_cases he : resolvedAnnotations.index kiamKey = ""
    · exact Or.inr (Or.inr ⟨hp, he, by rw [hrole, he], hk, hs⟩)
    · exact Or.inl ⟨by rw [hrole]; exact he, hk, hs⟩
  · exact Or.inl ⟨by rw [hrole]; exact ha, hk, hs⟩
  · exact Or.inr (Or.inl ⟨hrole, by rw [hk2]; exact hk, by rw [hs2]; exact hs⟩)

/-- A static-key descriptor: the role ARN is empty and both keys are set. -/
theorem parse_credential_variant_witness :
    ((⟨5, "https://sqs/q", "eu-west-1", "id", "key", "", ""⟩ : awsSqsQueueMetadata).awsRoleArn ≠ "" ∧
      (⟨5, "https://sqs/q", "eu-west-1", "id", "key", "", ""⟩ : awsSqsQueueMetadata).awsAccessKeyID
        = "" ∧
      (⟨5, "https://sqs/q", "eu-west-1", "id", "key", "", ""⟩ : awsSqsQueueMetadata).awsSecretAccessKey
        = "") ∨
    ((⟨5, "https://sqs/q", "eu-west-1", "id", "key", "", ""⟩ : awsSqsQueueMetadata).awsRoleArn = "" ∧
      (⟨5, "https://sqs/q", "eu-west-1", "id", "key", "", ""⟩ : awsSqsQueueMetadata).awsAccessKeyID
        ≠ "" ∧
      (⟨5, "https://sqs/q", "eu-west-1", "id", "key", "", ""⟩ : awsSqsQueueMetadata).awsSecretAccessKey
        ≠ "") ∨
    ("aws-credentials" = "kiam" ∧ GoMap.index [] "iam.amazonaws.com/role" = "" ∧
      (⟨5, "https://sqs/q", "eu-west-1", "id", "key", "", ""⟩ : awsSqsQueueMetadata).awsRoleArn = "" ∧
      (⟨5, "https://sqs/q", "eu-west-1", "id", "key", "", ""⟩ : awsSqsQueueMetadata).awsAccessKeyID
        = "" ∧
      (⟨5, "https://sqs/q", "eu-west-1", "id", "key", "", ""⟩ : awsSqsQueueMetadata).awsSecretAccessKey
        = "") :=
  parse_credential_variant "iam.amazonaws.com/role"
    [("queueURL", "https://sqs/q"), ("awsRegion", "eu-west-1")] []
    [("awsAccessKeyId", "id"), ("awsSecretAccessKey", "key")] "aws-credentials"
    ⟨5, "https://sqs/q", "eu-west-1", "id", "key", "", ""⟩ (by decide)

/-! ## `Atoi` on decimal numerals -/

theorem digitChar_isDigit (k : Nat) (h : k < 10) :
    (Nat.digitChar k).isDigit = true ∧ digitVal (Nat.digitChar k) = k := by
  interval_cases k <;> decide

theorem splitSign_digit (cs : List Char) (c : Char) (h : c.isDigit = true) :
    splitSign (c :: cs) = (false, c :: cs) := by
  unfold splitSign
  split
  · rename_i heq
    injection heq with hc _
    subst hc
    exact absurd h (by decide)
  · rename_i heq
    injection heq with hc _
    subst hc
    exact absurd h (by decide)
  · rfl

theorem toDigitsCore_spec (fuel : Nat) : ∀ (n : Nat) (ds : List Char), n < fuel →
    ∃ pre : List Char, Nat.toDigitsCore 10 fuel n ds = pre ++ ds ∧ pre ≠ [] ∧
      pre.all Char.isDigit = true ∧ digitsVal pre = n := by
  induction fuel with
  | zero => intro n ds h; omega
  | succ fuel ih =>
    intro n ds h
    have hd := digitChar_isDigit (n % 10) (Nat.mod_lt _ (by decide))
    by_cases h0 : n / 10 = 0
    · refine ⟨[Nat.digitChar (n % 10)], ?_, by simp, ?_, ?_⟩
      · simp [Nat.toDigitsCore, h0]
      · simp [hd.1]
      · simp [digitsVal, hd.2]; omega
    · obtain ⟨pre, hpre, hne, hall, hval⟩ := ih (n / 10) (Nat.digitChar (n % 10) :: ds) (by omega)
      refine ⟨pre ++ [Nat.digitChar (n % 10)], ?_, by simp, ?_, ?_⟩
      · simp [Nat.toDigitsCore, h0, hpre]
      · simp [List.all_append, hall, hd.1]
      · unfold digitsVal at hval ⊢
        simp [List.foldl_append, hval, hd.2]; omega

theorem toDigits_spec (n : Nat) :
    splitSign (Nat.toDigits 10 n) = (false, Nat.toDigits 10 n) ∧ Nat.toDigits 10 n ≠ [] ∧
      (Nat.toDigits 10 n).all Char.isDigit = true ∧ digitsVal (Nat.toDigits 10 n) = n := by
  obtain ⟨pre, hpre, hne, hall, hval⟩ := toDigitsCore_spec (n + 1) n [] (by omega)
  have : Nat.toDigits 10 n = pre := by simp [Nat.toDigits, hpre]
  rw [this]
  refine ⟨?_, hne, hall, hval⟩
  cases pre with
  | nil => exact absurd rfl hne
  | cons c cs => exact splitSign_digit cs c (by simp [List.all_cons] at hall; exact hall.1)

/-- The value read so far never decreases along a run of digits. -/
theorem foldl_digits_ge (cs : List Char) : ∀ a : Nat,
    a ≤ cs.foldl (fun n c => n * 10 + digitVal c) a := by
  induction cs with
  | nil => intro a; exact Nat.le_refl a
  | cons c cs ih =>
    intro a
    have h := ih (a * 10 + digitVal c)
    simp only [List.foldl_cons]
    omega

/-- On a run of digits whose value fits `uint64` the digit loop returns that
value and no error. -/
theorem parseUintLoop_digits (cs : List Char) : ∀ n : Nat,
    cs.all Char.isDigit = true →
    cs.foldl (fun n c => n * 10 + digitVal c) n ≤ maxUint64 →
    parseUintLoop cs n = (cs.foldl (fun n c => n * 10 + digitVal c) n, none) := by
  induction cs with
  | nil => intro n _ _; rfl
  | cons c cs ih =>
    intro n hall hle
    simp only [List.all_cons, Bool.and_eq_true] at hall
    simp only [List.foldl_cons] at hle ⊢
    have hge := foldl_digits_ge cs (n * 10 + digitVal c)
    have h1 : ¬ (c.isDigit = false) := by simp [hall.1]
    have hmax : maxUint64 = 18446744073709551615 := by decide
    have h2 : ¬ (maxUint64 / 10 + 1 ≤ n) := by
      rw [hmax] at hle ⊢
      omega
    have h3 : ¬ (maxUint64 < n * 10 + digitVal c) := by omega
    unfold parseUintLoop
    rw [if_neg h1, if_neg h2, if_neg h3]
    exact ih (n * 10 + digitVal c) hall.2 hle

/-- Reading of a non-empty run of digits whose value is below 2^63, with or
without a sign flag. -/
theorem ParseUint_digits (ds : List Char) (hne : ds ≠ [])
    (hall : ds.all Char.isDigit = true) (hle : digitsVal ds ≤ 2 ^ 63) :
    ParseUint ds = (digitsVal ds, none) := by
  unfold ParseUint
  rw [if_neg hne]
  apply parseUintLoop_digits ds 0 hall
  have hmax : maxUint64 = 18446744073709551615 := by decide
  unfold digitsVal at hle
  rw [hmax]
  omega

/-- Inversion of a `ParseInt` call that returned no error: the value is in the
range of `int`, and a negative value needs the sign flag. -/
theorem ParseInt_ok_inv (cs : List Char) (v : Int) (h : ParseInt cs = (v, none)) :
    minInt ≤ v ∧ v ≤ maxInt ∧ (v < 0 → (splitSign cs).1 = true) := by
  unfold ParseInt at h
  by_cases h0 : cs = []
  · rw [if_pos h0] at h
    simp at h
  · rw [if_neg h0] at h
    simp only at h
    by_cases h1 : (ParseUint (splitSign cs).2).2 = some NumErrKind.malformed
    · rw [if_pos h1] at h
      simp at h
    · rw [if_neg h1] at h
      by_cases h2 : (splitSign cs).1 = false ∧ 2 ^ 63 ≤ (ParseUint (splitSign cs).2).1
      · rw [if_pos h2] at h
        simp at h
      · rw [if_neg h2] at h
        by_cases h3 : (splitSign cs).1 = true ∧ 2 ^ 63 < (ParseUint (splitSign cs).2).1
        · rw [if_pos h3] at h
          simp at h
        · rw [if_neg h3] at h
          by_cases h4 : (splitSign cs).1 = true
          · rw [if_pos h4] at h
            have hv : -((ParseUint (splitSign cs).2).1 : Int) = v := by simpa using h
            have hb : ¬ (2 ^ 63 < (ParseUint (splitSign cs).2).1) := fun hc => h3 ⟨h4, hc⟩
            refine ⟨?_, ?_, fun _ => h4⟩
            · unfold minInt; omega
            · unfold maxInt; omega
          · rw [if_neg h4] at h
            have hv : ((ParseUint (splitSign cs).2).1 : Int) = v := by simpa using h
            have hf : (splitSign cs).1 = false := by simpa using h4
            have hb : ¬ (2 ^ 63 ≤ (ParseUint (splitSign cs).2).1) := fun hc => h2 ⟨hf, hc⟩
            refine ⟨?_, ?_, fun hneg => ?_⟩
            · unfold minInt; omega
            · unfold maxInt; omega
            · omega

/-- An `Atoi` call returns no error exactly when `ParseInt` does, with the
same value. -/
theorem Atoi_ok_iff (s : String) (v : Int) :
    Atoi s = (v, none) ↔ ParseInt s.data = (v, none) := by
  unfold Atoi
  rcases hP : ParseInt s.data with ⟨i, e⟩
  cases e with
  | none => simp
  | some k => simp

/-- Inversion of an `Atoi` call that returned no error. -/
theorem Atoi_ok_inv (s : String) (v : Int) (h : Atoi s = (v, none)) :
    minInt ≤ v ∧ v ≤ maxInt := by
  have hP := ParseInt_ok_inv s.data v ((Atoi_ok_iff s v).mp h)
  exact ⟨hP.1, hP.2.1⟩

/-- A negative value comes only from a numeral with a leading minus sign. -/
theorem Atoi_neg_sign (s : String) (v : Int) (h : Atoi s = (v, none)) (hv : v < 0) :
    s.data.head? = some '-' := by
  have hsign := (ParseInt_ok_inv s.data v ((Atoi_ok_iff s v).mp h)).2.2 hv
  revert hsign
  unfold splitSign
  split
  · rename_i heq
    intro _
    rw [heq]
    rfl
  · intro hc; simp at hc
  · intro hc; simp at hc

theorem Atoi_toString_nat (n : Nat) (h : (n : Int) ≤ maxInt) :
    Atoi (toString n) = ((n : Int), none) := by
  have hs := toDigits_spec n
  have hdata : (toString n).data = Nat.toDigits 10 n := rfl
  have hn : n < 2 ^ 63 := by unfold maxInt at h; omega
  have hU := ParseUint_digits (Nat.toDigits 10 n) hs.2.1 hs.2.2.1 (by rw [hs.2.2.2]; omega)
  rw [hs.2.2.2] at hU
  rw [Atoi_ok_iff, hdata]
  unfold ParseInt
  rw [if_neg hs.2.1]
  simp only [hs.1, hU]
  have h2 : ¬ (2 ^ 63 ≤ n) := by omega
  simp [h2]
  omega

theorem Atoi_toString_int (n : Int) (hlo : minInt ≤ n) (hhi : n ≤ maxInt) :
    Atoi (toString n) = (n, none) := by
  cases n with
  | ofNat k => exact Atoi_toString_nat k hhi
  | negSucc k =>
    have hs := toDigits_spec (k + 1)
    have hdata : (toString (Int.negSucc k)).data = '-' :: Nat.toDigits 10 (k + 1) := rfl
    have hsp : splitSign ('-' :: Nat.toDigits 10 (k + 1)) = (true, Nat.toDigits 10 (k + 1)) := rfl
    have hk : k + 1 ≤ 2 ^ 63 := by
      unfold minInt at hlo
      rw [Int.negSucc_eq] at hlo
      omega
    have hU := ParseUint_digits (Nat.toDigits 10 (k + 1)) hs.2.1 hs.2.2.1
      (by rw [hs.2.2.2]; exact hk)
    rw [hs.2.2.2] at hU
    rw [Atoi_ok_iff, hdata]
    unfold ParseInt
    rw [if_neg (by simp)]
    simp only [hsp, hU]
    have h3 : ¬ (2 ^ 63 < k + 1) := by omega
    simp [h3]
    have h4 : ¬ (9223372036854775808 < k + 1) := by omega
    rw [if_neg h4, Int.negSucc_eq]
    congr 1
    omega

/-- With the required keys present and a credential strategy selected, parsing
returns a descriptor and no error. -/
theorem parse_succeeds (kiamKey : String)
    (metadata resolvedAnnotations authParams : GoMap) (podIdentity url region : String)
    (hu : metadata.get? "queueURL" = some url) (hu0 : url ≠ "")
    (hr : metadata.get? "awsRegion" = some region) (hr0 : region ≠ "")
    (hc : podIdentity = "kiam" ∨ authParams.index "awsRoleArn" ≠ "" ∨
      (authParams.index "awsAccessKeyId" ≠ "" ∧ authParams.index "awsSecretAccessKey" ≠ "")) :
    ∃ m, parseAwsSqsQueueMetadata kiamKey metadata resolvedAnnotations authParams podIdentity
      = (some m, none) := by
  unfold parseAwsSqsQueueMetadata
  by_cases hp : podIdentity = "kiam"
  · simp [hu, hu0, hr, hr0, hp]
  · by_cases ha : authParams.index "awsRoleArn" = ""
    · rcases hc with hc | hc | ⟨hk, hs⟩
      · exact absurd hc hp
      · exact absurd ha hc
      · simp [hu, hu0, hr, hr0, hp, ha, hk, hs]
    · simp [hu, hu0, hr, hr0, hp, ha]

/-! ## The scale target read from `queueLength` -/

/-- The target when `queueLength` is absent. -/
theorem parseQueueLength_absent (metadata : GoMap)
    (h : metadata.get? "queueLength" = none) : parseQueueLength metadata = 5 := by
  unfold parseQueueLength
  rw [h]
  rfl

/-- The target when `Atoi` rejects the value of `queueLength`. -/
theorem parseQueueLength_unparseable (metadata : GoMap) (val : String)
    (h : metadata.get? "queueLength" = some val) (he : (Atoi val).2 ≠ none) :
    parseQueueLength metadata = 5 := by
  unfold parseQueueLength
  rw [h]
  by_cases hv : val = ""
  · simp [hv]
    rfl
  · simp only [ne_eq, hv, not_false_eq_true, if_true]
    rcases hA : Atoi val with ⟨v, e⟩
    rw [hA] at he
    cases e with
    | none => exact absurd rfl he
    | some e => rfl

/-- The target when `Atoi` accepts the value of `queueLength`. -/
theorem parseQueueLength_parsed (metadata : GoMap) (val : String) (n : Int)
    (h : metadata.get? "queueLength" = some val) (hA : Atoi val = (n, none)) :
    parseQueueLength metadata = n := by
  unfold parseQueueLength
  rw [h]
  have hv : val ≠ "" := by
    intro hc
    rw [hc] at hA
    have h2 : (Atoi "").2 = none := by rw [hA]
    exact absurd h2 (by decide)
  simp only [ne_eq, hv, not_false_eq_true, if_true, hA]

/-- C4: with the required keys present and a credential strategy selected,
parsing succeeds whatever `queueLength` holds.  The target is the default 5
when `queueLength` is absent or is a string that `strconv.Atoi` rejects; it is
`n` when `Atoi` reads the value as `n`, in particular when the value is the
decimal string of an integer `n` in the range of `int`. -/
theorem parse_queueLength_lenient (kiamKey : String)
    (metadata resolvedAnnotations authParams : GoMap) (podIdentity url region : String)
    (hu : metadata.get? "queueURL" = some url) (hu0 : url ≠ "")
    (hr : metadata.get? "awsRegion" = some region) (hr0 : region ≠ "")
    (hc : podIdentity = "kiam" ∨ authParams.index "awsRoleArn" ≠ "" ∨
      (authParams.index "awsAccessKeyId" ≠ "" ∧ authParams.index "awsSecretAccessKey" ≠ "")) :
    ∃ m, parseAwsSqsQueueMetadata kiamKey metadata resolvedAnnotations authParams podIdentity
        = (some m, none) ∧
      (metadata.get? "queueLength" = none → m.targetQueueLength = 5) ∧
      (∀ val, metadata.get? "queueLength" = some val → (Atoi val).2 ≠ none →
        m.targetQueueLength = 5) ∧
      (∀ val n, metadata.get? "queueLength" = some val → Atoi val = (n, none) →
        m.targetQueueLength = n) ∧
      (∀ n : Int, minInt ≤ n → n ≤ maxInt →
        metadata.get? "queueLength" = some (toString n) → m.targetQueueLength = n) := by
  obtain ⟨m, hm⟩ := parse_succeeds kiamKey metadata resolvedAnnotations authParams podIdentity
    url region hu hu0 hr hr0 hc
  have ht := (parse_success_inv kiamKey metadata resolvedAnnotations authParams podIdentity m
    (by rw [hm])).1
  refine ⟨m, hm, ?_, ?_, ?_, ?_⟩
  · intro h
    rw [ht]
    exact parseQueueLength_absent metadata h
  · intro val h he
    rw [ht]
    exact parseQueueLength_unparseable metadata val h he
  · intro val n h hA
    rw [ht]
    exact parseQueueLength_parsed metadata val n h hA
  · intro n hlo hhi h
    rw [ht]
    exact parseQueueLength_parsed metadata (toString n) n h (Atoi_toString_int n hlo hhi)

/-- Four values of `queueLength` next to static keys: a non-numeric string,
the empty string and a number beyond the range of `int` give the default
target 5, and "30" gives 30. -/
theorem parse_queueLength_lenient_witness :
    (∃ m, parseAwsSqsQueueMetadata "iam.amazonaws.com/role"
        [("queueLength", "many"), ("queueURL", "https://sqs/q"), ("awsRegion", "eu-west-1")] []
        [("awsAccessKeyId", "id"), ("awsSecretAccessKey", "key")] "" = (some m, none) ∧
      m.targetQueueLength = 5) ∧
    (∃ m, parseAwsSqsQueueMetadata "iam.amazonaws.com/role"
        [("queueLength", ""), ("queueURL", "https://sqs/q"), ("awsRegion", "eu-west-1")] []
        [("awsAccessKeyId", "id"), ("awsSecretAccessKey", "key")] "" = (some m, none) ∧
      m.targetQueueLength = 5) ∧
    (∃ m, parseAwsSqsQueueMetadata "iam.amazonaws.com/role"
        [("queueLength", "9223372036854775808"), ("queueURL", "https://sqs/q"),
          ("awsRegion", "eu-west-1")] []
        [("awsAccessKeyId", "id"), ("awsSecretAccessKey", "key")] "" = (some m, none) ∧
      m.targetQueueLength = 5) ∧
    (∃ m, parseAwsSqsQueueMetadata "iam.amazonaws.com/role"
        [("queueLength", "30"), ("queueURL", "https://sqs/q"), ("awsRegion", "eu-west-1")] []
        [("awsAccessKeyId", "id"), ("awsSecretAccessKey", "key")] "" = (some m, none) ∧
      m.targetQueueLength = 30) :=
  ⟨match parse_queueLength_lenient "iam.amazonaws.com/role"
      [("queueLength", "many"), ("queueURL", "https://sqs/q"), ("awsRegion", "eu-west-1")] []
      [("awsAccessKeyId", "id"), ("awsSecretAccessKey", "key")] "" "https://sqs/q" "eu-west-1"
      rfl (by decide) rfl (by decide) (Or.inr (Or.inr ⟨by decide, by decide⟩)) with
    | ⟨m, hm, _, hbad, _, _⟩ => ⟨m, hm, hbad "many" rfl (by decide)⟩,
   match parse_queueLength_lenient "iam.amazonaws.com/role"
      [("queueLength", ""), ("queueURL", "https://sqs/q"), ("awsRegion", "eu-west-1")] []
      [("awsAccessKeyId", "id"), ("awsSecretAccessKey", "key")] "" "https://sqs/q" "eu-west-1"
      rfl (by decide) rfl (by decide) (Or.inr (Or.inr ⟨by decide, by decide⟩)) with
    | ⟨m, hm, _, hbad, _, _⟩ => ⟨m, hm, hbad "" rfl (by decide)⟩,
   match parse_queueLength_lenient "iam.amazonaws.com/role"
      [("queueLength", "9223372036854775808"), ("queueURL", "https://sqs/q"),
        ("awsRegion", "eu-west-1")] []
      [("awsAccessKeyId", "id"), ("awsSecretAccessKey", "key")] "" "https://sqs/q" "eu-west-1"
      rfl (by decide) rfl (by decide) (Or.inr (Or.inr ⟨by decide, by decide⟩)) with
    | ⟨m, hm, _, hbad, _, _⟩ => ⟨m, hm, hbad "9223372036854775808" rfl (by decide)⟩,
   match parse_queueLength_lenient "iam.amazonaws.com/role"
      [("queueLength", "30"), ("queueURL", "https://sqs/q"), ("awsRegion", "eu-west-1")] []
      [("awsAccessKeyId", "id"), ("awsSecretAccessKey", "key")] "" "https://sqs/q" "eu-west-1"
      rfl (by decide) rfl (by decide) (Or.inr (Or.inr ⟨by decide, by decide⟩)) with
    | ⟨m, hm, _, _, _, hint⟩ => ⟨m, hm, hint 30 (by decide) (by decide) (by decide)⟩⟩

/-- C10, as stated, fails: `queueLength` "-3" is accepted and the target is
the negative number -3. -/
theorem parse_negative_target_counterexample :
    parseAwsSqsQueueMetadata "iam.amazonaws.com/role"
        [("queueLength", "-3"), ("queueURL", "https://sqs/q"), ("awsRegion", "eu-west-1")] []
        [("awsAccessKeyId", "id"), ("awsSecretAccessKey", "key")] "" =
      (some ⟨-3, "https://sqs/q", "eu-west-1", "id", "key", "", ""⟩, none) ∧
    ¬ (0 ≤ (⟨-3, "https://sqs/q", "eu-west-1", "id", "key", "", ""⟩ :
      awsSqsQueueMetadata).targetQueueLength) := by
  decide

/-- C10, amended: after a successful parse, whenever `queueLength` is a string
that `strconv.Atoi` reads as a negative integer `n`, the target is that
negative integer `n` (the string has a leading minus sign and `n` is not below
the least `int`); in every other case the target is non-negative. -/
theorem parse_target_sign (kiamKey : String)
    (metadata resolvedAnnotations authParams : GoMap) (podIdentity : String)
    (m : awsSqsQueueMetadata)
    (h : parseAwsSqsQueueMetadata kiamKey metadata resolvedAnnotations authParams podIdentity
      = (some m, none)) :
    (∀ val n, metadata.get? "queueLength" = some val → Atoi val = (n, none) → n < 0 →
      m.targetQueueLength = n ∧ m.targetQueueLength < 0 ∧
      val.data.head? = some '-' ∧ minInt ≤ n) ∧
    ((¬ ∃ val n, metadata.get? "queueLength" = some val ∧ Atoi val = (n, none) ∧ n < 0) →
      0 ≤ m.targetQueueLength) := by
  have ht := (parse_success_inv kiamKey metadata resolvedAnnotations authParams podIdentity m
    (by rw [h])).1
  constructor
  · intro val n hq hA hn
    have htn : m.targetQueueLength = n := by
      rw [ht]
      exact parseQueueLength_parsed metadata val n hq hA
    refine ⟨htn, ?_, Atoi_neg_sign val n hA hn, (Atoi_ok_inv val n hA).1⟩
    rw [htn]
    exact hn
  · intro hno
    cases hq : metadata.get? "queueLength" with
    | none =>
      rw [ht, parseQueueLength_absent metadata hq]
      decide
    | some val =>
      rcases hA : Atoi val with ⟨v, e⟩
      cases e with
      | some e =>
        rw [ht, parseQueueLength_unparseable metadata val hq (by rw [hA]; simp)]
        decide
      | none =>
        rw [ht, parseQueueLength_parsed metadata val v hq hA]
        by_contra hv
        exact hno ⟨val, v, hq, hA, not_le.mp hv⟩

/-- Both sides at concrete inputs: `queueLength` "-12" gives the target -12,
and `queueLength` "7" gives a non-negative target. -/
theorem parse_target_sign_witness :
    ((⟨-12, "https://sqs/q", "eu-west-1", "", "", "", "arn"⟩ :
        awsSqsQueueMetadata).targetQueueLength = -12 ∧
      (⟨-12, "https://sqs/q", "eu-west-1", "", "", "", "arn"⟩ :
        awsSqsQueueMetadata).targetQueueLength < 0 ∧
      "-12".data.head? = some '-' ∧ minInt ≤ -12) ∧
    0 ≤ (⟨7, "https://sqs/q", "eu-west-1", "", "", "", "arn"⟩ :
      awsSqsQueueMetadata).targetQueueLength :=
  ⟨(parse_target_sign "iam.amazonaws.com/role"
      [("queueLength", "-12"), ("queueURL", "https://sqs/q"), ("awsRegion", "eu-west-1")] []
      [("awsRoleArn", "arn")] "aws-role"
      ⟨-12, "https://sqs/q", "eu-west-1", "", "", "", "arn"⟩ (by decide)).1
      "-12" (-12) rfl (by decide) (by decide),
   (parse_target_sign "iam.amazonaws.com/role"
      [("queueLength", "7"), ("queueURL", "https://sqs/q"), ("awsRegion", "eu-west-1")] []
      [("awsRoleArn", "arn")] "aws-role"
      ⟨7, "https://sqs/q", "eu-west-1", "", "", "", "arn"⟩ (by decide)).2
      (by
        rintro ⟨val, n, hq, hA, hn⟩
        have hval : val = "7" := by
          have h7 : GoMap.get?
              [("queueLength", "7"), ("queueURL", "https://sqs/q"), ("awsRegion", "eu-west-1")]
              "queueLength" = some "7" := rfl
          rw [h7] at hq
          exact (Option.some.inj hq).symm
        rw [hval] at hA
        have h7 : Atoi "7" = (7, none) := by decide
        rw [h7] at hA
        have hn7 : (7 : Int) = n := congrArg Prod.fst hA
        omega)⟩

/-! ## Polling operations -/

/-- C6: when the queue-length measurement returns the value `v` without error,
`IsActive` returns the boolean `v > 0` and no error, so `true` exactly when
`0 < v` and `false` for `v = 0`; when the measurement returns the error `e`,
`IsActive` returns `false` together with `e`. -/
theorem IsActive_of_measurement (s : awsSqsQueueScaler) (client : SqsClient) :
    (∀ v, GetAwsSqsQueueLength s client = some (v, none) →
      IsActive s client = some (decide (0 < v), none) ∧
      (IsActive s client = some (true, none) ↔ 0 < v) ∧
      (v = 0 → IsActive s client = some (false, none))) ∧
    (∀ v e, GetAwsSqsQueueLength s client = some (v, some e) →
      IsActive s client = some (false, some e)) := by
  constructor
  · intro v h
    have hA : IsActive s client = some (decide (0 < v), none) := by
      unfold IsActive
      rw [h]
    refine ⟨hA, ?_, ?_⟩
    · rw [hA]
      simp
    · intro hv
      rw [hA, hv]
      rfl
  · intro v e h
    unfold IsActive
    rw [h]

/-- C7: when the queue-length measurement returns the value `v` without error,
`GetMetrics` returns no error and exactly one sample, named `metricName`, of
value `v`; when the measurement returns the error `e`, `GetMetrics` returns the
empty sequence together with `e`. -/
theorem GetMetrics_of_measurement (s : awsSqsQueueScaler) (client : SqsClient) (now : Nat)
    (metricName metricSelector : String) :
    (∀ v, GetAwsSqsQueueLength s client = some (v, none) →
      GetMetrics s client now metricName metricSelector =
        some ([{ MetricName := metricName
                 Value := { value := v, format := DecimalSI }
                 Timestamp := now }], none)) ∧
    (∀ v e, GetAwsSqsQueueLength s client = some (v, some e) →
      GetMetrics s client now metricName metricSelector = some ([], some e)) := by
  constructor
  · intro v h
    unfold GetMetrics
    rw [h]
    rfl
  · intro v e h
    unfold GetMetrics
    rw [h]

/-- C9: `GetMetricSpecForScaling` returns exactly one external-metric
descriptor, named "ApproximateNumberOfMessages", whose target is the
scaler's `targetQueueLength`; it takes no backend, so its result is fixed by the
scaler alone; and for a scaler holding a parsed descriptor the target is the
configured or defaulted `queueLength`. -/
theorem GetMetricSpecForScaling_single (externalMetricType : String) (s : awsSqsQueueScaler) :
    GetMetricSpecForScaling externalMetricType s =
      [{ External :=
           { MetricName := "ApproximateNumberOfMessages"
             TargetAverageValue := { value := s.metadata.targetQueueLength, format := DecimalSI } }
         type := externalMetricType }] ∧
    (GetMetricSpecForScaling externalMetricType s).length = 1 ∧
    (∀ (kiamKey : String) (metadata resolvedAnnotations authParams : GoMap)
        (podIdentity : String),
      parseAwsSqsQueueMetadata kiamKey metadata resolvedAnnotations authParams podIdentity =
        (some s.metadata, none) →
      (GetMetricSpecForScaling externalMetricType s).map
        (fun spec => spec.External.TargetAverageValue.value) = [parseQueueLength metadata]) := by
  refine ⟨rfl, rfl, ?_⟩
  intro kiamKey metadata resolvedAnnotations authParams podIdentity h
  have ht := (parse_success_inv kiamKey metadata resolvedAnnotations authParams podIdentity
    s.metadata (by rw [h])).1
  simp [GetMetricSpecForScaling, NewQuantity, ht]

/-- Measurements 12 and 0 and a failed request, as seen by `IsActive`. -/
theorem IsActive_of_measurement_witness :
    IsActive fixtureScaler (fixtureClient "12") = some (true, none) ∧
    IsActive fixtureScaler (fixtureClient "0") = some (false, none) ∧
    IsActive fixtureScaler (fixtureFailingClient (GoError.backend "AccessDenied")) =
      some (false, some (GoError.backend "AccessDenied")) :=
  ⟨((IsActive_of_measurement fixtureScaler (fixtureClient "12")).1 12 (by decide)).2.1.mpr
      (by decide),
   ((IsActive_of_measurement fixtureScaler (fixtureClient "0")).1 0 (by decide)).2.2 rfl,
   (IsActive_of_measurement fixtureScaler
      (fixtureFailingClient (GoError.backend "AccessDenied"))).2 (-1)
      (GoError.backend "AccessDenied") (by decide)⟩

/-- A measurement of 12 and a failed request, as seen by `GetMetrics`. -/
theorem GetMetrics_of_measurement_witness :
    GetMetrics fixtureScaler (fixtureClient "12") 1700000000 "queueLength" "" =
      some ([⟨"queueLength", ⟨12, DecimalSI⟩, 1700000000⟩], none) ∧
    GetMetrics fixtureScaler (fixtureFailingClient (GoError.backend "Throttling")) 1700000000
        "queueLength" "" =
      some ([], some (GoError.backend "Throttling")) :=
  ⟨(GetMetrics_of_measurement fixtureScaler (fixtureClient "12") 1700000000 "queueLength" "").1
      12 (by decide),
   (GetMetrics_of_measurement fixtureScaler
      (fixtureFailingClient (GoError.backend "Throttling")) 1700000000 "queueLength" "").2
      (-1) (GoError.backend "Throttling") (by decide)⟩

/-- The metric spec of a scaler parsed with `queueLength` "30". -/
theorem GetMetricSpecForScaling_single_witness :
    (GetMetricSpecForScaling "External"
        ⟨⟨30, "https://sqs/q", "eu-west-1", "", "", "", "arn"⟩⟩).map
      (fun spec => spec.External.TargetAverageValue.value) =
    [parseQueueLength
      [("queueLength", "30"), ("queueURL", "https://sqs/q"), ("awsRegion", "eu-west-1")]] :=
  (GetMetricSpecForScaling_single "External"
    ⟨⟨30, "https://sqs/q", "eu-west-1", "", "", "", "arn"⟩⟩).2.2
    "iam.amazonaws.com/role"
    [("queueLength", "30"), ("queueURL", "https://sqs/q"), ("awsRegion", "eu-west-1")] []
    [("awsRoleArn", "arn")] "aws-role" (by decide)

/-! ## The measurement -/

/-- The conversion to `int32` keeps a value below 2^31. -/
theorem toInt32_small (n : Nat) (h : n < 2 ^ 31) : toInt32 (n : Int) = (n : Int) := by
  unfold toInt32
  have h2 : ((n : Int) + 2 ^ 31) % 2 ^ 32 = (n : Int) + 2 ^ 31 := by
    apply Int.emod_eq_of_lt
    · positivity
    · have : (n : Int) < 2 ^ 31 := by exact_mod_cast h
      linarith
  rw [h2]
  ring

/-- C8: the code at the attribute "2147483648", the decimal string of 2^31.
`Atoi` reads 2147483648 without error, the unchecked conversion `int32(...)`
turns it into -2147483648, and so the measurement is not the attribute's
value: `GetMetrics` reports the sample -2147483648 and `IsActive` is false,
where the claim has the sample 2147483648 and `IsActive` true. -/
theorem measurement_int32_overflow :
    Atoi "2147483648" = (2147483648, none) ∧
    toString (2147483648 : Nat) = "2147483648" ∧
    GetAwsSqsQueueLength fixtureScaler (fixtureClient "2147483648") =
      some (-2147483648, none) ∧
    GetMetrics fixtureScaler (fixtureClient "2147483648") 0 "queueLength" "" =
      some ([⟨"queueLength", ⟨-2147483648, DecimalSI⟩, 0⟩], none) ∧
    IsActive fixtureScaler (fixtureClient "2147483648") = some (false, none) := by
  decide

/-- Below 2^31 the measurement is verbatim: when the request succeeds and the
attribute `ApproximateNumberOfMessages` is the decimal string of a natural
number `n` below 2^31, the measurement returns exactly `n` with no error,
`GetMetrics` reports one sample of value `n`, and `IsActive` is true exactly
when `0 < n`. -/
theorem measurement_verbatim (s : awsSqsQueueScaler) (client : SqsClient)
    (output : GetQueueAttributesOutput) (n now : Nat) (metricName metricSelector : String)
    (hc : client s.metadata.awsRegion (queueCredentials s) (queueAttributesInput s)
      = Except.ok output)
    (ha : List.lookup "ApproximateNumberOfMessages" output.Attributes = some (some (toString n)))
    (hn : n < 2 ^ 31) :
    GetAwsSqsQueueLength s client = some ((n : Int), none) ∧
    GetMetrics s client now metricName metricSelector =
      some ([{ MetricName := metricName
               Value := { value := (n : Int), format := DecimalSI }
               Timestamp := now }], none) ∧
    IsActive s client = some (decide (0 < n), none) := by
  have hA : Atoi (toString n) = ((n : Int), none) := by
    apply Atoi_toString_nat
    unfold maxInt
    have : (n : Int) < 2 ^ 31 := by exact_mod_cast hn
    linarith
  have hG : GetAwsSqsQueueLength s client = some ((n : Int), none) := by
    unfold GetAwsSqsQueueLength
    rw [hc]
    simp only [ha, Option.join, Option.bind, id, hA, toInt32_small n hn]
  refine ⟨hG, ?_, ?_⟩
  · unfold GetMetrics
    rw [hG]
    rfl
  · unfold IsActive
    rw [hG]
    simp

/-- The attribute "12": a measurement of 12, one sample of value 12, and
`IsActive` true. -/
theorem measurement_verbatim_witness :
    GetAwsSqsQueueLength fixtureScaler (fixtureClient "12") = some (12, none) ∧
    GetMetrics fixtureScaler (fixtureClient "12") 1700000000 "queueLength" "" =
      some ([⟨"queueLength", ⟨12, DecimalSI⟩, 1700000000⟩], none) ∧
    IsActive fixtureScaler (fixtureClient "12") = some (true, none) :=
  measurement_verbatim fixtureScaler (fixtureClient "12")
    ⟨[("ApproximateNumberOfMessages", some "12")]⟩ 12 1700000000 "queueLength" ""
    rfl (by decide) (by decide)

end Scalers
